import Mathlib

/-!
Shallow embedding of the aquamark-email-gateway webhook pipeline.

The repository contains three variants of the same Express handler for
POST /webhook/inbound:
  * variant A (src/index.js): per-file synchronous watermarking with inline
    base64 content, no extension filter, From set to the original sender;
  * variant B (src/unnamed/part_001): per-file synchronous watermarking with
    temporary staging in object storage (upload / getPublicUrl / remove),
    PDF extension filter inside the loop, From fixed to gateway@aquamark.io;
  * variant C (src/unnamed/part_002): batch watermarking with an asynchronous
    job, a bounded poll loop (15 attempts, 2s delay), result download as a
    ZIP archive that is unpacked into individual PDFs.

External collaborators (tenant directory, object storage, watermarking
service, mail provider) are modelled as oracles passed to the handlers, and
every collaborator invocation is recorded in an event trace.
-/

/-- JS `a || b` on two possibly-undefined strings: the empty string is falsy. -/
def jsOr (a b : Option String) : Option String :=
  match a with
  | some s => if s = "" then b else some s
  | none => b

/-- JS `a || d` where `d` is a string literal default. -/
def jsOrD (a : Option String) (d : String) : String :=
  match a with
  | some s => if s = "" then d else s
  | none => d

/-- JS `String.prototype.split(sep)` on the character list of a string. -/
def splitOnChar (sep : Char) : List Char → List (List Char)
  | [] => [[]]
  | c :: rest =>
    match splitOnChar sep rest with
    | [] => [[]]
    | g :: gs => if c = sep then [] :: g :: gs else (c :: g) :: gs

/-- JS `s.split(sep)` producing a list of strings. -/
def jsSplit (sep : Char) (s : String) : List String :=
  (splitOnChar sep s.toList).map String.mk

/-- `recipientEmail.split('@')[0]` — the funder key derived from the
recipient address (src/index.js line 69 and both unnamed variants). -/
def funderIdOf (r : String) : String :=
  (jsSplit '@' r).headD ""

/-- `name.toLowerCase().endsWith('.pdf')` — the document-extension test used
by variants B and C, implemented over the character list (last four lowered
characters equal `.pdf`) so that it evaluates by kernel reduction. -/
def jsEndsWithPdf (name : String) : Bool :=
  let low := name.toList.map Char.toLower
  low.drop (low.length - 4) == ".pdf".toList

/-- JS template interpolation of a possibly-undefined string. -/
def optStr : Option String → String
  | some s => s
  | none => "undefined"

/-- A tenant ("funder") directory record, per the columns the handlers read
from the `email_gateway_funders` table. -/
structure Funder where
  funder_id : String
  active : Bool
  destination_email : String
  company_name : String
  user_email : String
  logo_storage_path : String
deriving DecidableEq, Repr

/-- The supabase query `.eq('funder_id', key).eq('active', true).single()`:
exactly one matching active row succeeds, anything else is an error row. -/
def lookupFunder (db : List Funder) (key : String) : Option Funder :=
  match db.filter (fun f => f.funder_id == key && f.active) with
  | [f] => some f
  | _ => none

/-- An inbound attachment as delivered by the webhook payload. -/
structure RawAttachment where
  Name : String
  Content : String
  ContentType : String
deriving DecidableEq, Repr

/-- The fields of the inbound webhook JSON body that the handlers read.
Optional fields model possibly-absent JSON members. -/
structure EmailData where
  toFullEmail : Option String
  toField : Option String
  fromField : Option String
  fromFullEmail : Option String
  fromName : Option String
  fromFullName : Option String
  subject : Option String
  textBody : Option String
  htmlBody : Option String
  attachments : Option (List RawAttachment)
deriving DecidableEq, Repr

/-- A watermarked output attachment as placed on the outbound message. -/
structure ProcessedAttachment where
  Name : String
  Content : String
  ContentType : String
deriving DecidableEq, Repr

/-- The argument of `postmarkClient.sendEmail`. -/
structure OutMail where
  From : String
  ReplyTo : Option String
  To : String
  Subject : String
  TextBody : String
  Attachments : List ProcessedAttachment
deriving DecidableEq, Repr

/-- Observable collaborator invocations, in request order. -/
inductive Event where
  | lookup (key : String)
  | watermark (fileName : String)
  | watermarkBatch (files : List (String × String))
  | upload (path : String) (ok : Bool)
  | pollStatus (n : Nat)
  | download (url : Option String)
  | remove (path : String)
  | send (m : OutMail)
deriving DecidableEq, Repr

/-- The distinct HTTP responses the handlers produce. -/
inductive Resp where
  | internalError
  | funderNotFound
  | okNoAttachments
  | okNoPdf
  | allFailed
  | processingFailed (msg : String)
  | okSuccess (count : Nat)
deriving DecidableEq, Repr

/-- The HTTP status code of each response. -/
def httpStatus : Resp → Nat
  | .internalError => 500
  | .funderNotFound => 404
  | .okNoAttachments => 200
  | .okNoPdf => 200
  | .allFailed => 500
  | .processingFailed _ => 500
  | .okSuccess _ => 200

/-- Variant A per-attachment loop (src/index.js lines 107-153): every
attachment is submitted to the watermarking API; a failed call is logged and
skipped. The oracle gives the watermarked base64 content, or `none` when the
call fails. Returns the accumulated attachments and the call trace. -/
def processA (wm : RawAttachment → Option String) :
    List RawAttachment → List ProcessedAttachment × List Event
  | [] => ([], [])
  | att :: rest =>
    let pr := processA wm rest
    match wm att with
    | some c => (⟨att.Name, c, att.ContentType⟩ :: pr.1, Event.watermark att.Name :: pr.2)
    | none => (pr.1, Event.watermark att.Name :: pr.2)

/-- Variant A body after the recipient address has been resolved
(src/index.js lines 69-182). `sendRes` is `none` when `sendEmail` succeeds,
`some msg` when it throws. -/
def handlerABody (db : List Funder) (wm : RawAttachment → Option String)
    (sendRes : Option String) (e : EmailData) (r : String) : Resp × List Event :=
  match lookupFunder db (funderIdOf r) with
  | none => (.funderNotFound, [])
  | some funder =>
    match jsOr e.fromField e.fromFullEmail with
    | none => (.internalError, [])
    | some senderEmail =>
      let attachments := e.attachments.getD []
      if attachments.isEmpty then (.okNoAttachments, [])
      else
        let pr := processA wm attachments
        if pr.1.isEmpty then (.allFailed, pr.2)
        else
          let mail : OutMail :=
            ⟨senderEmail, none, funder.destination_email, "New Submission", "", pr.1⟩
          match sendRes with
          | none => (.okSuccess pr.1.length, pr.2 ++ [Event.send mail])
          | some _ => (.internalError, pr.2 ++ [Event.send mail])

/-- Variant A handler (src/index.js, POST /webhook/inbound). An absent
recipient address raises a TypeError caught by the catch-all, before the
directory is queried. -/
def handlerA (db : List Funder) (wm : RawAttachment → Option String)
    (sendRes : Option String) (e : EmailData) : Resp × List Event :=
  match jsOr e.toFullEmail e.toField with
  | none => (.internalError, [])
  | some r =>
    let body := handlerABody db wm sendRes e r
    (body.1, Event.lookup (funderIdOf r) :: body.2)

/-- Variant B sender display name:
`emailData.FromName || emailData.FromFull?.Name || senderEmail.split('@')[0]`
(src/unnamed/part_001 line 90). `none` models the TypeError raised when the
fallback split runs on an undefined sender address. -/
def senderNameB (e : EmailData) (senderEmailOpt : Option String) : Option String :=
  match jsOr e.fromName e.fromFullName with
  | some n => some n
  | none =>
    match senderEmailOpt with
    | some se => some ((jsSplit '@' se).headD "")
    | none => none

/-- Outcome of one iteration of variant B's per-attachment loop, as decided
by the storage and watermarking collaborators. -/
inductive BOutcome where
  | uploadFail
  | wmFail
  | wmOk (contentB64 : String)
deriving DecidableEq, Repr

/-- `temp/${Date.now()}-${attachment.Name}` with the clock oracle `ts`
sampled at the loop index (src/unnamed/part_001 line 117). -/
def tempName (ts : Nat → Nat) (i : Nat) (name : String) : String :=
  "temp/" ++ toString (ts i) ++ "-" ++ name

/-- Variant B per-attachment loop (src/unnamed/part_001 lines 108-189):
non-PDF names are skipped; a PDF is uploaded to temporary storage (recorded
in `tempFiles` only on upload success), then submitted to the watermarking
API by staged URL; any failure inside the iteration is caught and the loop
continues. Returns (attachments, tempFiles, events). -/
def processB (outcome : Nat → BOutcome) (ts : Nat → Nat) :
    List RawAttachment → Nat → List ProcessedAttachment × List String × List Event
  | [], _ => ([], [], [])
  | att :: rest, i =>
    if jsEndsWithPdf att.Name then
      let path := tempName ts i att.Name
      match outcome i with
      | .uploadFail =>
        let pr := processB outcome ts rest (i + 1)
        (pr.1, pr.2.1, Event.upload path false :: pr.2.2)
      | .wmFail =>
        let pr := processB outcome ts rest (i + 1)
        (pr.1, path :: pr.2.1,
          Event.upload path true :: Event.watermark att.Name :: pr.2.2)
      | .wmOk c =>
        let pr := processB outcome ts rest (i + 1)
        (⟨att.Name, c, "application/pdf"⟩ :: pr.1, path :: pr.2.1,
          Event.upload path true :: Event.watermark att.Name :: pr.2.2)
    else
      processB outcome ts rest (i + 1)

/-- Variant B body after the recipient address has been resolved
(src/unnamed/part_001 lines 70-226). The cleanup loop removes every tracked
temp file before the all-failed check and before the outbound send. -/
def handlerBBody (db : List Funder) (outcome : Nat → BOutcome) (ts : Nat → Nat)
    (sendRes : Option String) (e : EmailData) (r : String) : Resp × List Event :=
  match lookupFunder db (funderIdOf r) with
  | none => (.funderNotFound, [])
  | some funder =>
    let senderEmailOpt := jsOr e.fromField e.fromFullEmail
    match senderNameB e senderEmailOpt with
    | none => (.internalError, [])
    | some senderName =>
      let attachments := e.attachments.getD []
      if attachments.isEmpty then (.okNoAttachments, [])
      else
        let pr := processB outcome ts attachments 0
        let cleanupEvs := pr.2.1.map Event.remove
        if pr.1.isEmpty then (.allFailed, pr.2.2 ++ cleanupEvs)
        else
          let mail : OutMail :=
            ⟨"gateway@aquamark.io", senderEmailOpt, funder.destination_email,
              "New Submission - " ++ funder.company_name,
              "Submitted by: " ++ senderName ++ " (" ++ optStr senderEmailOpt ++ ")",
              pr.1⟩
          match sendRes with
          | none => (.okSuccess pr.1.length, pr.2.2 ++ cleanupEvs ++ [Event.send mail])
          | some _ => (.internalError, pr.2.2 ++ cleanupEvs ++ [Event.send mail])

/-- Variant B handler (src/unnamed/part_001, POST /webhook/inbound). -/
def handlerB (db : List Funder) (outcome : Nat → BOutcome) (ts : Nat → Nat)
    (sendRes : Option String) (e : EmailData) : Resp × List Event :=
  match jsOr e.toFullEmail e.toField with
  | none => (.internalError, [])
  | some r =>
    let body := handlerBBody db outcome ts sendRes e r
    (body.1, Event.lookup (funderIdOf r) :: body.2)

/-- The base64 alphabet. -/
def b64Alphabet : List Char :=
  "ABCDEFGHIJKLMNOPQRSTUVWXYZabcdefghijklmnopqrstuvwxyz0123456789+/".toList

/-- The base64 digit for a 6-bit value. -/
def b64CharAt (n : Nat) : Char := b64Alphabet.getD n '='

/-- Standard base64 encoding of a byte list (JS
`Buffer.prototype.toString('base64')`). -/
def base64EncodeAux : List Nat → List Char
  | [] => []
  | [a] => [b64CharAt (a / 4 % 64), b64CharAt (a % 4 * 16), '=', '=']
  | [a, b] =>
    [b64CharAt (a / 4 % 64), b64CharAt (a % 4 * 16 + b / 16 % 16),
      b64CharAt (b % 16 * 4), '=']
  | a :: b :: c :: rest =>
    b64CharAt (a / 4 % 64) :: b64CharAt (a % 4 * 16 + b / 16 % 16) ::
      b64CharAt (b % 16 * 4 + c / 64 % 4) :: b64CharAt (c % 64) ::
      base64EncodeAux rest

/-- Base64 encoding as a string. -/
def base64Encode (bs : List Nat) : String := String.mk (base64EncodeAux bs)

/-- The 6-bit value of a base64 digit, `none` for characters outside the
alphabet (ignored by JS `Buffer.from(s, 'base64')`). -/
def b64Val (c : Char) : Option Nat :=
  let idx := b64Alphabet.indexOf c
  if idx < 64 then some idx else none

/-- Reassemble bytes from 6-bit groups, dropping a trailing incomplete byte. -/
def base64DecodeVals : List Nat → List Nat
  | a :: b :: c :: d :: rest =>
    (a * 4 + b / 16) :: (b % 16 * 16 + c / 4) :: (c % 4 * 64 + d) ::
      base64DecodeVals rest
  | [a, b, c] => [a * 4 + b / 16, b % 16 * 16 + c / 4]
  | [a, b] => [a * 4 + b / 16]
  | _ => []

/-- JS `Buffer.from(s, 'base64')` as a byte list. -/
def jsBase64Decode (s : String) : List Nat :=
  base64DecodeVals (s.toList.filterMap b64Val)

/-- One response of the job-status endpoint as seen by a poll attempt:
a non-2xx response, or a JSON body `{status, download_url?, error_message?}`. -/
inductive PollResponse where
  | notOk
  | ok (status : String) (download_url : Option String) (error_message : Option String)
deriving DecidableEq, Repr

/-- Terminal meaning of a poll iteration. -/
inductive PollOutcome where
  | completed (url : Option String)
  | failed (msg : Option String)
  | timeout
deriving DecidableEq, Repr

/-- Classification of one poll response (src/unnamed/part_002 lines 169-179):
`completed` and `failed` are terminal, anything else — including a non-ok
response — continues the loop. -/
def pollStep (p : PollResponse) : Option PollOutcome :=
  match p with
  | .notOk => none
  | .ok s url msg =>
    if s = "completed" then some (.completed url)
    else if s = "failed" then some (.failed msg)
    else none

/-- The poll loop from start index `k` with `rem` attempts of budget left;
the second component counts the polls actually issued
(src/unnamed/part_002 lines 156-182). -/
def runPolls (polls : Nat → PollResponse) : Nat → Nat → PollOutcome × Nat
  | _, 0 => (.timeout, 0)
  | k, rem + 1 =>
    match pollStep (polls k) with
    | some o => (o, 1)
    | none =>
      let pr := runPolls polls (k + 1) rem
      (pr.1, pr.2 + 1)

/-- `while (attempts < 15 && !jobCompleted)` with a 2-second sleep before
each status request. -/
def pollLoop (polls : Nat → PollResponse) : PollOutcome × Nat :=
  runPolls polls 0 15

/-- An entry of the downloaded result ZIP (adm-zip's view). -/
structure ZipEntry where
  entryName : String
  isDirectory : Bool
  data : List Nat
deriving DecidableEq, Repr

/-- Variant C archive unpacking (src/unnamed/part_002 lines 199-209): keep
non-directory entries whose name ends with `.pdf` (case-insensitive), one
attachment per entry, named after the entry. -/
def unzipWatermarked (entries : List ZipEntry) : List ProcessedAttachment :=
  (entries.filter (fun en => !en.isDirectory && jsEndsWithPdf en.entryName)).map
    (fun en => ⟨en.entryName, base64Encode en.data, "application/pdf"⟩)

/-- Result of the initial batch call to the watermarking API. -/
inductive WmCallResult where
  | fail (status : Nat) (body : String)
  | okJob (jobId : String)
deriving DecidableEq, Repr

/-- Result of fetching the download URL (plus ZIP parsing). -/
inductive DownloadResult where
  | fail (statusText : String)
  | ok (entries : List ZipEntry)
deriving DecidableEq, Repr

/-- Variant C body after the recipient address has been resolved
(src/unnamed/part_002 lines 70-240). `sendRes` is `none` when `sendEmail`
succeeds; a thrown send error is caught by the inner catch. -/
def handlerCBody (db : List Funder) (wmCall : WmCallResult)
    (polls : Nat → PollResponse) (download : Option String → DownloadResult)
    (sendRes : Option String) (e : EmailData) (r : String) : Resp × List Event :=
  match lookupFunder db (funderIdOf r) with
  | none => (.funderNotFound, [])
  | some funder =>
    let originalSubject := jsOrD e.subject "New Submission"
    let originalBody := (jsOr e.textBody e.htmlBody).getD ""
    match jsOr e.fromField e.fromFullEmail with
    | none => (.internalError, [])
    | some senderEmail =>
      let attachments := e.attachments.getD []
      if attachments.isEmpty then (.okNoAttachments, [])
      else
        let pdfAttachments := attachments.filter (fun att => jsEndsWithPdf att.Name)
        if pdfAttachments.isEmpty then (.okNoPdf, [])
        else
          let files := pdfAttachments.map (fun att => (att.Name, att.Content))
          match wmCall with
          | .fail st body =>
            (.processingFailed ("Watermarking API failed (" ++ toString st ++ "): " ++ body),
              [Event.watermarkBatch files])
          | .okJob _ =>
            let pres := pollLoop polls
            let pollEvs := (List.range pres.2).map Event.pollStatus
            match pres.1 with
            | .failed msg =>
              (.processingFailed ("Watermarking job failed: " ++ optStr msg),
                Event.watermarkBatch files :: pollEvs)
            | .timeout =>
              (.processingFailed "Watermarking job timed out",
                Event.watermarkBatch files :: pollEvs)
            | .completed url =>
              match download url with
              | .fail st =>
                (.processingFailed ("Failed to download watermarked file: " ++ st),
                  Event.watermarkBatch files :: (pollEvs ++ [Event.download url]))
              | .ok entries =>
                let wms := unzipWatermarked entries
                if wms.isEmpty then
                  (.processingFailed "No PDF files found in watermarked ZIP",
                    Event.watermarkBatch files :: (pollEvs ++ [Event.download url]))
                else
                  let mail : OutMail :=
                    ⟨"Aquamark <gateway@aquamark.io>", some senderEmail,
                      funder.destination_email, originalSubject, originalBody, wms⟩
                  match sendRes with
                  | none =>
                    (.okSuccess files.length,
                      Event.watermarkBatch files ::
                        (pollEvs ++ [Event.download url, Event.send mail]))
                  | some m =>
                    (.processingFailed m,
                      Event.watermarkBatch files ::
                        (pollEvs ++ [Event.download url, Event.send mail]))

/-- Variant C handler (src/unnamed/part_002, POST /webhook/inbound). -/
def handlerC (db : List Funder) (wmCall : WmCallResult)
    (polls : Nat → PollResponse) (download : Option String → DownloadResult)
    (sendRes : Option String) (e : EmailData) : Resp × List Event :=
  match jsOr e.toFullEmail e.toField with
  | none => (.internalError, [])
  | some r =>
    let body := handlerCBody db wmCall polls download sendRes e r
    (body.1, Event.lookup (funderIdOf r) :: body.2)

/-- True exactly on the loop outcomes that append a watermarked attachment. -/
def bOk : BOutcome → Bool
  | .wmOk _ => true
  | _ => false

/-- The eligible (PDF-named) attachments of variant B's loop, paired with
their index in the inbound attachment list. -/
def eligEnumB (atts : List RawAttachment) : List (Nat × RawAttachment) :=
  atts.enum.filter (fun p => jsEndsWithPdf p.2.Name)

/-- Specification-side description of variant B's output set, for comparison
with the loop: the successfully watermarked attachments, in input order. -/
def specSentB (outcome : Nat → BOutcome) (atts : List RawAttachment) :
    List ProcessedAttachment :=
  (eligEnumB atts).filterMap (fun p =>
    match outcome p.1 with
    | .wmOk c => some ⟨p.2.Name, c, "application/pdf"⟩
    | _ => none)

/-! ### Concrete fixtures used by witnesses and counterexamples -/

/-- An active tenant record. -/
def acmeFunder : Funder :=
  { funder_id := "acme", active := true, destination_email := "ops@acme.example",
    company_name := "Acme Capital", user_email := "owner@acme.example",
    logo_storage_path := "logos/acme.png" }

/-- A directory holding one active tenant. -/
def dbAcme : List Funder := [acmeFunder]

/-- A directory whose only record matches the key `nodomain`. -/
def dbNodomain : List Funder :=
  [{ funder_id := "nodomain", active := true, destination_email := "ops@x.example",
     company_name := "X", user_email := "u@x.example", logo_storage_path := "p" }]

/-- A directory whose only record is inactive but otherwise matches `acme`. -/
def dbInactive : List Funder :=
  [{ acmeFunder with active := false }]

/-- A PDF attachment (content is base64 of `hello`). -/
def attPdf : RawAttachment := ⟨"doc.pdf", "aGVsbG8=", "application/pdf"⟩

/-- A second PDF attachment (content is base64 of `world`). -/
def attPdf2 : RawAttachment := ⟨"deck.pdf", "d29ybGQ=", "application/pdf"⟩

/-- A non-document attachment. -/
def attTxt : RawAttachment := ⟨"notes.txt", "aGk=", "text/plain"⟩

/-- A PDF-named attachment whose base64 content decodes to zero bytes. -/
def attEmptyPdf : RawAttachment := ⟨"empty.pdf", "", "application/pdf"⟩

/-- A well-formed inbound email for the `acme` tenant. -/
def eAcme : EmailData :=
  { toFullEmail := some "acme@gateway.aquamark.io", toField := none,
    fromField := some "alice@broker.example", fromFullEmail := none,
    fromName := none, fromFullName := none,
    subject := none, textBody := none, htmlBody := none,
    attachments := some [attPdf] }

/-- The same email sent to a recipient address without an `@` separator. -/
def eNoAt : EmailData := { eAcme with toFullEmail := some "nodomain" }

/-- The same email with only a non-document attachment. -/
def eTxtOnly : EmailData := { eAcme with attachments := some [attTxt] }

/-- The same email whose only attachment is PDF-named with empty content. -/
def eEmptyPdf : EmailData := { eAcme with attachments := some [attEmptyPdf] }

/-- The same email with no recipient address at all. -/
def eNoRec : EmailData := { eAcme with toFullEmail := none, toField := none }

/-- The same email with two PDF attachments. -/
def eTwoPdf : EmailData := { eAcme with attachments := some [attPdf, attPdf2] }

/-- A result archive with three document entries and one non-document entry. -/
def zipGood : List ZipEntry :=
  [⟨"a.pdf", false, [1, 2, 3]⟩, ⟨"b.PDF", false, [4]⟩,
   ⟨"c.pdf", false, [5, 6]⟩, ⟨"readme.txt", false, [7]⟩]

/-- A result archive with no document entries. -/
def zipNoPdf : List ZipEntry := [⟨"readme.txt", false, [1]⟩]

/-- A job-status collaborator that always reports `pending`. -/
def pollsPending : Nat → PollResponse :=
  fun _ => PollResponse.ok "pending" none none

/-- A job-status collaborator that reports `pending` twice and then `failed`
with message `err` on the third poll. -/
def pollsFailAt3 : Nat → PollResponse :=
  fun k =>
    if k = 2 then PollResponse.ok "failed" none (some "err")
    else PollResponse.ok "pending" none none

/-! ### Helper lemmas -/

theorem splitOnChar_ne_nil (sep : Char) (l : List Char) : splitOnChar sep l ≠ [] := by
  induction l with
  | nil => simp [splitOnChar]
  | cons c rest ih =>
    unfold splitOnChar
    cases h : splitOnChar sep rest with
    | nil => exact absurd h ih
    | cons g gs =>
      by_cases hc : c = sep <;> simp [hc]

theorem splitOnChar_headD (sep : Char) (l : List Char) :
    (splitOnChar sep l).headD [] = l.takeWhile (fun c => c != sep) := by
  induction l with
  | nil => rfl
  | cons c rest ih =>
    unfold splitOnChar
    cases h : splitOnChar sep rest with
    | nil => exact absurd h (splitOnChar_ne_nil sep rest)
    | cons g gs =>
      rw [h] at ih
      simp only [List.headD_cons] at ih
      by_cases hc : c = sep
      · subst hc
        simp [List.takeWhile_cons]
      · simp [hc, List.takeWhile_cons, ih]

theorem funderIdOf_eq_takeWhile (r : String) :
    funderIdOf r = String.mk (r.toList.takeWhile (fun c => c != '@')) := by
  unfold funderIdOf jsSplit
  cases h : splitOnChar '@' r.toList with
  | nil => exact absurd h (splitOnChar_ne_nil '@' r.toList)
  | cons g gs =>
    have hh := splitOnChar_headD '@' r.toList
    rw [h] at hh
    simp only [List.headD_cons] at hh
    simp [hh]

theorem takeWhile_of_all {α : Type} (p : α → Bool) (l : List α)
    (h : ∀ c ∈ l, p c = true) : l.takeWhile p = l := by
  induction l with
  | nil => rfl
  | cons c rest ih =>
    rw [List.takeWhile_cons_of_pos (h c (List.mem_cons_self c rest))]
    rw [ih (fun x hx => h x (List.mem_cons_of_mem c hx))]

theorem funderIdOf_of_no_at (r : String) (h : '@' ∉ r.toList) : funderIdOf r = r := by
  rw [funderIdOf_eq_takeWhile]
  rw [takeWhile_of_all _ _ (fun c hc => by
    simp only [bne_iff_ne, ne_eq, decide_eq_true_eq]
    intro he
    exact h (he ▸ hc))]
  rfl

theorem lookupFunder_eq_none (db : List Funder) (key : String)
    (h : ∀ f ∈ db, f.funder_id = key → f.active = false) :
    lookupFunder db key = none := by
  unfold lookupFunder
  have hf : db.filter (fun f => f.funder_id == key && f.active) = [] := by
    rw [List.filter_eq_nil_iff]
    intro f hfm
    simp only [Bool.and_eq_true, beq_iff_eq, not_and]
    intro hid hact
    rw [h f hfm hid] at hact
    exact Bool.false_ne_true hact
  rw [hf]

theorem processA_no_send (wm : RawAttachment → Option String)
    (l : List RawAttachment) (m : OutMail) :
    Event.send m ∉ (processA wm l).2 := by
  induction l with
  | nil => simp [processA]
  | cons att rest ih =>
    unfold processA
    cases h : wm att <;> simp [h] <;> exact ih

theorem processB_nil (outcome : Nat → BOutcome) (ts : Nat → Nat) (i : Nat) :
    processB outcome ts [] i = ([], [], []) := rfl

theorem processB_cons (outcome : Nat → BOutcome) (ts : Nat → Nat)
    (att : RawAttachment) (rest : List RawAttachment) (i : Nat) :
    processB outcome ts (att :: rest) i =
      if jsEndsWithPdf att.Name then
        match outcome i with
        | .uploadFail =>
          let pr := processB outcome ts rest (i + 1)
          (pr.1, pr.2.1, Event.upload (tempName ts i att.Name) false :: pr.2.2)
        | .wmFail =>
          let pr := processB outcome ts rest (i + 1)
          (pr.1, tempName ts i att.Name :: pr.2.1,
            Event.upload (tempName ts i att.Name) true :: Event.watermark att.Name :: pr.2.2)
        | .wmOk c =>
          let pr := processB outcome ts rest (i + 1)
          (⟨att.Name, c, "application/pdf"⟩ :: pr.1, tempName ts i att.Name :: pr.2.1,
            Event.upload (tempName ts i att.Name) true :: Event.watermark att.Name :: pr.2.2)
      else processB outcome ts rest (i + 1) := rfl

theorem processB_no_send (outcome : Nat → BOutcome) (ts : Nat → Nat)
    (l : List RawAttachment) (i : Nat) (m : OutMail) :
    Event.send m ∉ (processB outcome ts l i).2.2 := by
  induction l generalizing i with
  | nil => rw [processB_nil]; simp
  | cons att rest ih =>
    rw [processB_cons]
    by_cases hp : jsEndsWithPdf att.Name
    · rw [if_pos hp]
      cases h : outcome i <;> simp [h] <;> exact ih (i + 1)
    · rw [if_neg hp]
      exact ih (i + 1)

theorem processB_upload_mem (outcome : Nat → BOutcome) (ts : Nat → Nat)
    (l : List RawAttachment) (i : Nat) (path : String)
    (h : Event.upload path true ∈ (processB outcome ts l i).2.2) :
    path ∈ (processB outcome ts l i).2.1 := by
  induction l generalizing i with
  | nil => rw [processB_nil] at h; simp at h
  | cons att rest ih =>
    rw [processB_cons] at h ⊢
    by_cases hp : jsEndsWithPdf att.Name
    · rw [if_pos hp] at h ⊢
      cases ho : outcome i <;> rw [ho] at h <;> simp at h ⊢
      · exact ih (i + 1) h
      · rcases h with hpath | h
        · exact Or.inl hpath
        · exact Or.inr (ih (i + 1) h)
      · rcases h with hpath | h
        · exact Or.inl hpath
        · exact Or.inr (ih (i + 1) h)
    · rw [if_neg hp] at h ⊢
      exact ih (i + 1) h

theorem processB_all_nonpdf (outcome : Nat → BOutcome) (ts : Nat → Nat)
    (l : List RawAttachment) (i : Nat)
    (h : ∀ a ∈ l, jsEndsWithPdf a.Name = false) :
    processB outcome ts l i = ([], [], []) := by
  induction l generalizing i with
  | nil => rfl
  | cons att rest ih =>
    rw [processB_cons]
    rw [if_neg (by simp [h att (List.mem_cons_self att rest)])]
    exact ih (i + 1) (fun a ha => h a (List.mem_cons_of_mem att ha))

theorem runPolls_zero (polls : Nat → PollResponse) (k : Nat) :
    runPolls polls k 0 = (.timeout, 0) := rfl

theorem runPolls_succ (polls : Nat → PollResponse) (k rem : Nat) :
    runPolls polls k (rem + 1) =
      match pollStep (polls k) with
      | some o => (o, 1)
      | none => ((runPolls polls (k + 1) rem).1, (runPolls polls (k + 1) rem).2 + 1) := rfl

theorem runPolls_count_le (polls : Nat → PollResponse) (k rem : Nat) :
    (runPolls polls k rem).2 ≤ rem := by
  induction rem generalizing k with
  | zero => simp [runPolls_zero]
  | succ n ih =>
    rw [runPolls_succ]
    cases h : pollStep (polls k) with
    | some o => simp
    | none =>
      simp only []
      exact Nat.succ_le_succ (ih (k + 1))

theorem runPolls_all_none (polls : Nat → PollResponse) (k rem : Nat)
    (h : ∀ i, i < rem → pollStep (polls (k + i)) = none) :
    runPolls polls k rem = (.timeout, rem) := by
  induction rem generalizing k with
  | zero => rfl
  | succ n ih =>
    rw [runPolls_succ]
    have h0 : pollStep (polls k) = none := by
      have := h 0 (Nat.succ_pos n)
      simpa using this
    rw [h0]
    have hr := ih (k + 1) (fun i hi => by
      have e : k + 1 + i = k + (i + 1) := by omega
      rw [e]
      exact h (i + 1) (by omega))
    simp [hr]

theorem runPolls_first_terminal (polls : Nat → PollResponse) (k rem j : Nat)
    (o : PollOutcome) (hj : j < rem)
    (hnone : ∀ i, i < j → pollStep (polls (k + i)) = none)
    (hterm : pollStep (polls (k + j)) = some o) :
    runPolls polls k rem = (o, j + 1) := by
  induction rem generalizing k j with
  | zero => omega
  | succ n ih =>
    rw [runPolls_succ]
    cases j with
    | zero =>
      have h0 : pollStep (polls k) = some o := by simpa using hterm
      rw [h0]
    | succ jj =>
      have h0 : pollStep (polls k) = none := by
        simpa using hnone 0 (Nat.succ_pos jj)
      rw [h0]
      have hr := ih (k + 1) jj (by omega)
        (fun i hi => by
          have e : k + 1 + i = k + (i + 1) := by omega
          rw [e]
          exact hnone (i + 1) (by omega))
        (by
          have e : k + 1 + jj = k + (jj + 1) := by omega
          rw [e]
          exact hterm)
      simp [hr]

theorem processB_results (outcome : Nat → BOutcome) (ts : Nat → Nat)
    (l : List RawAttachment) (i : Nat) :
    (processB outcome ts l i).1 =
      ((l.enumFrom i).filter (fun p => jsEndsWithPdf p.2.Name)).filterMap
        (fun p => match outcome p.1 with
          | .wmOk c => some ⟨p.2.Name, c, "application/pdf"⟩
          | _ => none) := by
  induction l generalizing i with
  | nil => rfl
  | cons att rest ih =>
    rw [processB_cons, List.enumFrom_cons]
    by_cases hp : jsEndsWithPdf att.Name
    · rw [if_pos hp]
      cases ho : outcome i <;>
        simp [List.filter_cons, hp, List.filterMap_cons, ho, ih (i + 1)]
    · rw [if_neg hp, List.filter_cons_of_neg (by simpa using hp)]
      exact ih (i + 1)

theorem filterMap_split_length {α : Type} {β : Type} (f : α → Option β)
    (p : α → Bool) (l : List α) (hc : ∀ a, (f a).isSome = p a) :
    (l.filterMap f).length + (l.filter (fun a => !p a)).length = l.length := by
  induction l with
  | nil => rfl
  | cons a rest ih =>
    rw [List.filterMap_cons]
    cases hf : f a with
    | none =>
      have hpa : p a = false := by rw [← hc a, hf]; rfl
      simp only [List.filter_cons, hpa, Bool.not_false, if_pos, List.length_cons]
      omega
    | some b =>
      have hpa : p a = true := by rw [← hc a, hf]; rfl
      simp only [List.filter_cons, hpa, Bool.not_true, List.length_cons,
        Bool.false_eq_true, if_false]
      omega

theorem specSentB_length (outcome : Nat → BOutcome) (atts : List RawAttachment) :
    (specSentB outcome atts).length
      + ((eligEnumB atts).filter (fun p => !bOk (outcome p.1))).length
      = (eligEnumB atts).length := by
  unfold specSentB
  apply filterMap_split_length
  intro a
  cases h : outcome a.1 <;> simp [h, bOk]

/-! ### Claim theorems -/

/-- C10: for an inbound payload with no recipient address (neither
`ToFull[0].Email` nor `To`), the handler answers through the catch-all with
the generic internal-error payload (HTTP 500) — not 404 and not a
malformed-recipient error — and no collaborator is invoked (empty trace). -/
theorem c10_missing_recipient (db : List Funder)
    (wm : RawAttachment → Option String) (sendRes : Option String)
    (e : EmailData) (h1 : e.toFullEmail = none) (h2 : e.toField = none) :
    handlerA db wm sendRes e = (Resp.internalError, []) ∧
    httpStatus Resp.internalError = 500 := by
  have hro : jsOr e.toFullEmail e.toField = none := by rw [h1, h2]; rfl
  refine ⟨?_, rfl⟩
  unfold handlerA
  rw [hro]

/-- Witness for C10 at a concrete payload with both recipient fields absent. -/
theorem c10_missing_recipient_witness :
    handlerA dbAcme (fun _ => none) none eNoRec = (Resp.internalError, []) ∧
    httpStatus Resp.internalError = 500 :=
  c10_missing_recipient dbAcme (fun _ => none) none eNoRec rfl rfl

/-- C1 counterexample: the recipient address `nodomain` has no `@`, yet no
MalformedRecipient failure occurs and the directory collaborator is invoked
with the whole string as key; with a matching active record the pipeline
even runs to completion and sends mail. -/
theorem c1_counterexample :
    handlerA dbNodomain (fun _ => some "wmk") none eNoAt =
      (Resp.okSuccess 1,
        [Event.lookup "nodomain", Event.watermark "doc.pdf",
          Event.send
            ⟨"alice@broker.example", none, "ops@x.example", "New Submission", "",
              [⟨"doc.pdf", "wmk", "application/pdf"⟩]⟩]) := by
  rfl

/-- C1 (amended): the tenant key is the substring of the recipient address
before the first `@`, and the whole address when no `@` is present; in either
case the directory lookup is the first collaborator call — there is no
MalformedRecipient failure. -/
theorem c1_tenant_key (db : List Funder) (wm : RawAttachment → Option String)
    (sendRes : Option String) (e : EmailData) (r : String)
    (h : jsOr e.toFullEmail e.toField = some r) :
    (handlerA db wm sendRes e).2.head? = some (Event.lookup (funderIdOf r)) ∧
    funderIdOf r = String.mk (r.toList.takeWhile (fun c => c != '@')) ∧
    ('@' ∉ r.toList → funderIdOf r = r) := by
  refine ⟨?_, funderIdOf_eq_takeWhile r, funderIdOf_of_no_at r⟩
  unfold handlerA
  rw [h]
  rfl

/-- Witness for C1 at a concrete `@`-less recipient address. -/
theorem c1_tenant_key_witness :
    (handlerA dbAcme (fun _ => none) none eNoAt).2.head? =
        some (Event.lookup (funderIdOf "nodomain")) ∧
      funderIdOf "nodomain" = "nodomain" := by
  have h := c1_tenant_key dbAcme (fun _ => none) none eNoAt "nodomain" rfl
  exact ⟨h.1, h.2.2 (by decide)⟩

/-- C8: when every directory record matching the derived tenant key is
inactive, lookup fails and the handler answers 404 Funder-not-found; the
trace stops at the directory call, so no watermarking or mail collaborator
is invoked. Holds in all three variants. -/
theorem c8_inactive_tenant (db : List Funder)
    (wm : RawAttachment → Option String) (oc : Nat → BOutcome) (ts : Nat → Nat)
    (wc : WmCallResult) (polls : Nat → PollResponse)
    (dl : Option String → DownloadResult) (s1 s2 s3 : Option String)
    (e : EmailData) (r : String)
    (hrec : jsOr e.toFullEmail e.toField = some r)
    (hin : ∀ f ∈ db, f.funder_id = funderIdOf r → f.active = false) :
    handlerA db wm s1 e = (Resp.funderNotFound, [Event.lookup (funderIdOf r)]) ∧
    handlerB db oc ts s2 e = (Resp.funderNotFound, [Event.lookup (funderIdOf r)]) ∧
    handlerC db wc polls dl s3 e =
      (Resp.funderNotFound, [Event.lookup (funderIdOf r)]) ∧
    httpStatus Resp.funderNotFound = 404 := by
  have hn := lookupFunder_eq_none db (funderIdOf r) hin
  refine ⟨?_, ?_, ?_, rfl⟩
  · simp only [handlerA, handlerABody, hrec, hn]
  · simp only [handlerB, handlerBBody, hrec, hn]
  · simp only [handlerC, handlerCBody, hrec, hn]

/-- Witness for C8: a record fully matching the key `acme` except for
`active := false` yields the 404 response in all three variants. -/
theorem c8_inactive_tenant_witness :
    handlerA dbInactive (fun _ => some "w") none eAcme =
      (Resp.funderNotFound, [Event.lookup (funderIdOf "acme@gateway.aquamark.io")]) ∧
    handlerB dbInactive (fun _ => BOutcome.wmOk "w") (fun _ => 0) none eAcme =
      (Resp.funderNotFound, [Event.lookup (funderIdOf "acme@gateway.aquamark.io")]) ∧
    handlerC dbInactive (WmCallResult.okJob "j") (fun _ => PollResponse.notOk)
        (fun _ => DownloadResult.fail "x") none eAcme =
      (Resp.funderNotFound, [Event.lookup (funderIdOf "acme@gateway.aquamark.io")]) ∧
    httpStatus Resp.funderNotFound = 404 :=
  c8_inactive_tenant dbInactive (fun _ => some "w") (fun _ => BOutcome.wmOk "w")
    (fun _ => 0) (WmCallResult.okJob "j") (fun _ => PollResponse.notOk)
    (fun _ => DownloadResult.fail "x") none none none eAcme
    "acme@gateway.aquamark.io" rfl (by decide)

/-- C2 counterexample: in the staging variant (src/unnamed/part_001), an
inbound attachment list holding only a non-document file yields the HTTP 500
all-failed response, not the benign 200 no-op the claim asserts for every
variant — the watermarking collaborator is indeed never invoked (the trace
holds only the directory lookup), but the response is an error. -/
theorem c2_counterexample :
    handlerB dbAcme (fun _ => BOutcome.wmOk "w") (fun _ => 0) none eTxtOnly =
        (Resp.allFailed, [Event.lookup "acme"]) ∧
      httpStatus Resp.allFailed = 500 := by
  constructor
  · rfl
  · rfl

/-- C2 (amended): with a resolved tenant, an empty attachment list yields the
200 no-op in the staging and async variants; a non-empty list with only
non-document files yields the 200 no-op in the async variant but the 500
all-failed response in the staging variant — in all these cases the trace is
only the directory lookup, so the watermarking collaborator is never
invoked. -/
theorem c2_filter_noop (db : List Funder) (wc : WmCallResult)
    (polls : Nat → PollResponse) (dl : Option String → DownloadResult)
    (oc : Nat → BOutcome) (ts : Nat → Nat) (s1 s2 : Option String)
    (e : EmailData) (r : String) (funder : Funder) (sn : String)
    (hrec : jsOr e.toFullEmail e.toField = some r)
    (hfun : lookupFunder db (funderIdOf r) = some funder)
    (hse : (jsOr e.fromField e.fromFullEmail).isSome = true)
    (hsn : senderNameB e (jsOr e.fromField e.fromFullEmail) = some sn) :
    (e.attachments.getD [] = [] →
      handlerC db wc polls dl s1 e =
          (Resp.okNoAttachments, [Event.lookup (funderIdOf r)]) ∧
        handlerB db oc ts s2 e =
          (Resp.okNoAttachments, [Event.lookup (funderIdOf r)])) ∧
    (e.attachments.getD [] ≠ [] →
      (∀ a ∈ e.attachments.getD [], jsEndsWithPdf a.Name = false) →
      handlerC db wc polls dl s1 e =
          (Resp.okNoPdf, [Event.lookup (funderIdOf r)]) ∧
        handlerB db oc ts s2 e =
          (Resp.allFailed, [Event.lookup (funderIdOf r)])) ∧
    httpStatus Resp.okNoAttachments = 200 ∧ httpStatus Resp.okNoPdf = 200 ∧
      httpStatus Resp.allFailed = 500 := by
  obtain ⟨se, hseq⟩ := Option.isSome_iff_exists.mp hse
  refine ⟨?_, ?_, rfl, rfl, rfl⟩
  · intro hA
    constructor
    · simp only [handlerC, handlerCBody, hrec, hfun, hseq, hA, List.isEmpty_nil,
        if_true]
    · simp only [handlerB, handlerBBody, hrec, hfun, hsn, hA, List.isEmpty_nil,
        if_true]
  · intro hA hnp
    have hfil : (e.attachments.getD []).filter (fun a => jsEndsWithPdf a.Name) = [] :=
      List.filter_eq_nil_iff.mpr (fun a ha => by simp [hnp a ha])
    have hie : (e.attachments.getD []).isEmpty = false := by
      simpa using hA
    constructor
    · simp only [handlerC, handlerCBody, hrec, hfun, hseq, hie, Bool.false_eq_true,
        if_false, hfil, List.isEmpty_nil, if_true]
    · have hpb := processB_all_nonpdf oc ts (e.attachments.getD []) 0 hnp
      simp only [handlerB, handlerBBody, hrec, hfun, hsn, hie, Bool.false_eq_true,
        if_false, hpb, List.isEmpty_nil, if_true, List.map_nil, List.append_nil]

/-- Witness for C2 at a concrete only-non-document attachment list: the async
variant answers 200 no-op, the staging variant answers 500 all-failed. -/
theorem c2_filter_noop_witness :
    handlerC dbAcme (WmCallResult.okJob "j") (fun _ => PollResponse.notOk)
        (fun _ => DownloadResult.fail "x") none eTxtOnly =
        (Resp.okNoPdf, [Event.lookup (funderIdOf "acme@gateway.aquamark.io")]) ∧
      handlerB dbAcme (fun _ => BOutcome.wmOk "w") (fun _ => 0) none eTxtOnly =
        (Resp.allFailed, [Event.lookup (funderIdOf "acme@gateway.aquamark.io")]) := by
  have h := c2_filter_noop dbAcme (WmCallResult.okJob "j")
    (fun _ => PollResponse.notOk) (fun _ => DownloadResult.fail "x")
    (fun _ => BOutcome.wmOk "w") (fun _ => 0) none none eTxtOnly
    "acme@gateway.aquamark.io" acmeFunder "alice" rfl rfl rfl rfl
  exact h.2.1 (by decide) (by decide)

theorem handlerCBody_batch (db : List Funder) (wc : WmCallResult)
    (polls : Nat → PollResponse) (dl : Option String → DownloadResult)
    (sr : Option String) (e : EmailData) (r : String) (funder : Funder)
    (se : String) (hfun : lookupFunder db (funderIdOf r) = some funder)
    (hseq : jsOr e.fromField e.fromFullEmail = some se)
    (hA : (e.attachments.getD []).isEmpty = false)
    (hP : ((e.attachments.getD []).filter
      (fun att => jsEndsWithPdf att.Name)).isEmpty = false) :
    ∃ tail, (handlerCBody db wc polls dl sr e r).2 =
      Event.watermarkBatch
        (((e.attachments.getD []).filter (fun att => jsEndsWithPdf att.Name)).map
          (fun att => (att.Name, att.Content))) :: tail := by
  simp only [handlerCBody, hfun, hseq, hA, hP, Bool.false_eq_true, if_false]
  cases wc with
  | fail st body => exact ⟨_, rfl⟩
  | okJob j =>
    dsimp only
    cases (pollLoop polls).1 with
    | failed msg => exact ⟨_, rfl⟩
    | timeout => exact ⟨_, rfl⟩
    | completed url =>
      dsimp only
      cases dl url with
      | fail st => exact ⟨_, rfl⟩
      | ok entries =>
        dsimp only
        cases hz : (unzipWatermarked entries).isEmpty with
        | true => exact ⟨_, by rw [if_pos rfl]⟩
        | false =>
          rw [if_neg (by simp)]
          cases sr with
          | none => exact ⟨_, rfl⟩
          | some m => exact ⟨_, rfl⟩

/-- C9 counterexample: a PDF-named attachment whose base64 content decodes to
zero bytes is nevertheless submitted to the watermarking service — the batch
call of the async variant carries `("empty.pdf", "")` even though
`jsBase64Decode "" = []`; eligibility never inspects decoded content. -/
theorem c9_counterexample :
    handlerC dbAcme (WmCallResult.fail 500 "boom") (fun _ => PollResponse.notOk)
        (fun _ => DownloadResult.fail "x") none eEmptyPdf =
      (Resp.processingFailed "Watermarking API failed (500): boom",
        [Event.lookup "acme", Event.watermarkBatch [("empty.pdf", "")]]) ∧
    jsBase64Decode "" = [] := by
  exact ⟨rfl, rfl⟩

/-- C9 (amended): eligibility for watermarking in the async variant depends
only on the file-name extension — the submitted batch is exactly the
extension-filtered attachments with their (possibly empty) contents passed
through unchanged, and every PDF-named attachment is part of it. -/
theorem c9_extension_only (db : List Funder) (wc : WmCallResult)
    (polls : Nat → PollResponse) (dl : Option String → DownloadResult)
    (sr : Option String) (e : EmailData) (r : String) (funder : Funder)
    (se : String)
    (hrec : jsOr e.toFullEmail e.toField = some r)
    (hfun : lookupFunder db (funderIdOf r) = some funder)
    (hseq : jsOr e.fromField e.fromFullEmail = some se)
    (hA : (e.attachments.getD []).isEmpty = false)
    (hP : ((e.attachments.getD []).filter
      (fun att => jsEndsWithPdf att.Name)).isEmpty = false) :
    Event.watermarkBatch
        (((e.attachments.getD []).filter (fun att => jsEndsWithPdf att.Name)).map
          (fun att => (att.Name, att.Content))) ∈ (handlerC db wc polls dl sr e).2 ∧
    ∀ a ∈ e.attachments.getD [], jsEndsWithPdf a.Name = true →
      (a.Name, a.Content) ∈
        ((e.attachments.getD []).filter (fun att => jsEndsWithPdf att.Name)).map
          (fun att => (att.Name, att.Content)) := by
  constructor
  · obtain ⟨tail, htail⟩ :=
      handlerCBody_batch db wc polls dl sr e r funder se hfun hseq hA hP
    have : handlerC db wc polls dl sr e =
        ((handlerCBody db wc polls dl sr e r).1,
          Event.lookup (funderIdOf r) :: (handlerCBody db wc polls dl sr e r).2) := by
      unfold handlerC
      rw [hrec]
    rw [this, htail]
    exact List.mem_cons_of_mem _ (List.mem_cons_self _ _)
  · intro a ha hpa
    exact List.mem_map_of_mem _ (List.mem_filter.mpr ⟨ha, hpa⟩)

/-- Witness for C9: the empty-content PDF attachment is submitted. -/
theorem c9_extension_only_witness :
    Event.watermarkBatch [("empty.pdf", "")] ∈
      (handlerC dbAcme (WmCallResult.fail 500 "boom") (fun _ => PollResponse.notOk)
        (fun _ => DownloadResult.fail "x") none eEmptyPdf).2 ∧
    jsBase64Decode "" = [] := by
  have h := c9_extension_only dbAcme (WmCallResult.fail 500 "boom")
    (fun _ => PollResponse.notOk) (fun _ => DownloadResult.fail "x") none
    eEmptyPdf "acme@gateway.aquamark.io" acmeFunder "alice@broker.example"
    rfl rfl rfl rfl rfl
  exact ⟨h.1, rfl⟩

theorem handlerABody_send (db : List Funder) (wm : RawAttachment → Option String)
    (sr : Option String) (e : EmailData) (r : String) (funder : Funder)
    (se : String) (hfun : lookupFunder db (funderIdOf r) = some funder)
    (hse : jsOr e.fromField e.fromFullEmail = some se) :
    ∀ m : OutMail, Event.send m ∈ (handlerABody db wm sr e r).2 →
      m.From = se ∧ m.ReplyTo = none ∧ m.To = funder.destination_email := by
  intro m hm
  simp only [handlerABody, hfun, hse] at hm
  by_cases hA : (e.attachments.getD []).isEmpty
  · rw [if_pos hA] at hm
    simp at hm
  · rw [if_neg hA] at hm
    by_cases hP : (processA wm (e.attachments.getD [])).1.isEmpty
    · rw [if_pos hP] at hm
      exact absurd hm (processA_no_send wm _ m)
    · rw [if_neg hP] at hm
      cases sr with
      | none =>
        dsimp only at hm
        rcases List.mem_append.mp hm with h | h
        · exact absurd h (processA_no_send wm _ m)
        · simp at h
          subst h
          exact ⟨rfl, rfl, rfl⟩
      | some msg =>
        dsimp only at hm
        rcases List.mem_append.mp hm with h | h
        · exact absurd h (processA_no_send wm _ m)
        · simp at h
          subst h
          exact ⟨rfl, rfl, rfl⟩

theorem handlerBBody_send (db : List Funder) (oc : Nat → BOutcome)
    (ts : Nat → Nat) (sr : Option String) (e : EmailData) (r : String)
    (funder : Funder) (sn : String)
    (hfun : lookupFunder db (funderIdOf r) = some funder)
    (hsn : senderNameB e (jsOr e.fromField e.fromFullEmail) = some sn) :
    ∀ m : OutMail, Event.send m ∈ (handlerBBody db oc ts sr e r).2 →
      m.From = "gateway@aquamark.io" ∧
      m.ReplyTo = jsOr e.fromField e.fromFullEmail ∧
      m.To = funder.destination_email := by
  intro m hm
  simp only [handlerBBody, hfun, hsn] at hm
  by_cases hA : (e.attachments.getD []).isEmpty
  · rw [if_pos hA] at hm
    simp at hm
  · rw [if_neg hA] at hm
    by_cases hP : (processB oc ts (e.attachments.getD []) 0).1.isEmpty
    · rw [if_pos hP] at hm
      rcases List.mem_append.mp hm with h | h
      · exact absurd h (processB_no_send oc ts _ 0 m)
      · simp at h
    · rw [if_neg hP] at hm
      cases sr with
      | none =>
        dsimp only at hm
        rcases List.mem_append.mp hm with h | h
        · rcases List.mem_append.mp h with h2 | h2
          · exact absurd h2 (processB_no_send oc ts _ 0 m)
          · simp at h2
        · simp at h
          subst h
          exact ⟨rfl, rfl, rfl⟩
      | some msg =>
        dsimp only at hm
        rcases List.mem_append.mp hm with h | h
        · rcases List.mem_append.mp h with h2 | h2
          · exact absurd h2 (processB_no_send oc ts _ 0 m)
          · simp at h2
        · simp at h
          subst h
          exact ⟨rfl, rfl, rfl⟩

theorem handlerCBody_send (db : List Funder) (wc : WmCallResult)
    (polls : Nat → PollResponse) (dl : Option String → DownloadResult)
    (sr : Option String) (e : EmailData) (r : String) (funder : Funder)
    (se : String) (hfun : lookupFunder db (funderIdOf r) = some funder)
    (hse : jsOr e.fromField e.fromFullEmail = some se) :
    ∀ m : OutMail, Event.send m ∈ (handlerCBody db wc polls dl sr e r).2 →
      m.From = "Aquamark <gateway@aquamark.io>" ∧ m.ReplyTo = some se ∧
      m.To = funder.destination_email := by
  intro m hm
  simp only [handlerCBody, hfun, hse] at hm
  by_cases hA : (e.attachments.getD []).isEmpty
  · rw [if_pos hA] at hm
    simp at hm
  · rw [if_neg hA] at hm
    by_cases hP : ((e.attachments.getD []).filter
      (fun att => jsEndsWithPdf att.Name)).isEmpty
    · rw [if_pos hP] at hm
      simp at hm
    · rw [if_neg hP] at hm
      cases wc with
      | fail st body => simp at hm
      | okJob j =>
        dsimp only at hm
        revert hm
        cases (pollLoop polls).1 with
        | failed msg =>
          intro hm
          simp at hm
        | timeout =>
          intro hm
          simp at hm
        | completed url =>
          dsimp only
          cases dl url with
          | fail st =>
            intro hm
            simp at hm
          | ok entries =>
            dsimp only
            cases hz : (unzipWatermarked entries).isEmpty with
            | true =>
              intro hm
              rw [if_pos rfl] at hm
              simp at hm
            | false =>
              rw [if_neg (by simp)]
              cases sr with
              | none =>
                intro hm
                simp at hm
                subst hm
                exact ⟨rfl, rfl, rfl⟩
              | some msg =>
                intro hm
                simp at hm
                subst hm
                exact ⟨rfl, rfl, rfl⟩

/-- C6 counterexample: in the basic variant (src/index.js) the assembled
outbound message sets From to the ORIGINAL sender's address
(`alice@broker.example`), not the gateway's fixed verified identity, and
carries no reply-to field at all, contradicting the claim for that variant. -/
theorem c6_counterexample :
    handlerA dbAcme (fun _ => some "wmk") none eAcme =
      (Resp.okSuccess 1,
        [Event.lookup "acme", Event.watermark "doc.pdf",
          Event.send
            ⟨"alice@broker.example", none, "ops@acme.example", "New Submission",
              "", [⟨"doc.pdf", "wmk", "application/pdf"⟩]⟩]) ∧
    "alice@broker.example" ≠ "gateway@aquamark.io" := by
  exact ⟨rfl, by decide⟩

/-- C6 (amended): in the staging and async variants every sent message has
From fixed to the gateway identity (`gateway@aquamark.io`, respectively
`Aquamark <gateway@aquamark.io>`), ReplyTo set to the original sender and To
set to the tenant's destination_email; in the basic variant From is the
original sender's address and no ReplyTo is set, while To is still the
tenant's destination_email. -/
theorem c6_mail_fields (db : List Funder) (wm : RawAttachment → Option String)
    (oc : Nat → BOutcome) (ts : Nat → Nat) (wc : WmCallResult)
    (polls : Nat → PollResponse) (dl : Option String → DownloadResult)
    (s1 s2 s3 : Option String) (e : EmailData) (r : String) (funder : Funder)
    (se : String)
    (hrec : jsOr e.toFullEmail e.toField = some r)
    (hfun : lookupFunder db (funderIdOf r) = some funder)
    (hse : jsOr e.fromField e.fromFullEmail = some se) :
    (∀ m : OutMail, Event.send m ∈ (handlerB db oc ts s2 e).2 →
      m.From = "gateway@aquamark.io" ∧ m.ReplyTo = some se ∧
      m.To = funder.destination_email) ∧
    (∀ m : OutMail, Event.send m ∈ (handlerC db wc polls dl s3 e).2 →
      m.From = "Aquamark <gateway@aquamark.io>" ∧ m.ReplyTo = some se ∧
      m.To = funder.destination_email) ∧
    (∀ m : OutMail, Event.send m ∈ (handlerA db wm s1 e).2 →
      m.From = se ∧ m.ReplyTo = none ∧ m.To = funder.destination_email) := by
  have hBeq : handlerB db oc ts s2 e =
      ((handlerBBody db oc ts s2 e r).1,
        Event.lookup (funderIdOf r) :: (handlerBBody db oc ts s2 e r).2) := by
    unfold handlerB
    rw [hrec]
  have hCeq : handlerC db wc polls dl s3 e =
      ((handlerCBody db wc polls dl s3 e r).1,
        Event.lookup (funderIdOf r) :: (handlerCBody db wc polls dl s3 e r).2) := by
    unfold handlerC
    rw [hrec]
  have hAeq : handlerA db wm s1 e =
      ((handlerABody db wm s1 e r).1,
        Event.lookup (funderIdOf r) :: (handlerABody db wm s1 e r).2) := by
    unfold handlerA
    rw [hrec]
  have hsn : ∃ sn, senderNameB e (jsOr e.fromField e.fromFullEmail) = some sn := by
    rw [hse]
    unfold senderNameB
    cases h : jsOr e.fromName e.fromFullName with
    | none => exact ⟨_, rfl⟩
    | some n => exact ⟨_, rfl⟩
  obtain ⟨sn, hsn⟩ := hsn
  refine ⟨?_, ?_, ?_⟩
  · intro m hm
    rw [hBeq] at hm
    rcases List.mem_cons.mp hm with h | h
    · exact absurd h (by simp)
    · have := handlerBBody_send db oc ts s2 e r funder sn hfun hsn m h
      rw [hse] at this
      exact this
  · intro m hm
    rw [hCeq] at hm
    rcases List.mem_cons.mp hm with h | h
    · exact absurd h (by simp)
    · exact handlerCBody_send db wc polls dl s3 e r funder se hfun hse m h
  · intro m hm
    rw [hAeq] at hm
    rcases List.mem_cons.mp hm with h | h
    · exact absurd h (by simp)
    · exact handlerABody_send db wm s1 e r funder se hfun hse m h

/-- Witness for C6: concrete successful runs of the staging and async
variants send with the fixed gateway identity, reply-to the original sender
and the tenant's destination. -/
theorem c6_mail_fields_witness :
    (∀ m : OutMail,
      Event.send m ∈ (handlerB dbAcme (fun _ => BOutcome.wmOk "w") (fun _ => 0)
          none eAcme).2 →
        m.From = "gateway@aquamark.io" ∧ m.ReplyTo = some "alice@broker.example" ∧
        m.To = acmeFunder.destination_email) ∧
    (∀ m : OutMail,
      Event.send m ∈ (handlerA dbAcme (fun _ => some "w") none eAcme).2 →
        m.From = "alice@broker.example" ∧ m.ReplyTo = none ∧
        m.To = acmeFunder.destination_email) := by
  have h := c6_mail_fields dbAcme (fun _ => some "w") (fun _ => BOutcome.wmOk "w")
    (fun _ => 0) (WmCallResult.okJob "j") (fun _ => PollResponse.notOk)
    (fun _ => DownloadResult.fail "x") none none none eAcme
    "acme@gateway.aquamark.io" acmeFunder "alice@broker.example" rfl rfl rfl
  exact ⟨h.1, h.2.2⟩

/-- C7: the unpacker yields exactly one attachment per non-directory entry
whose name ends in `.pdf` (case-insensitive), in order and named after the
entry; directory and other entries are discarded; and when no eligible entry
remains the async pipeline run fails hard with the
`No PDF files found in watermarked ZIP` error (HTTP 500). -/
theorem c7_unzip_shape (entries : List ZipEntry) :
    (unzipWatermarked entries).length =
      (entries.filter
        (fun en => !en.isDirectory && jsEndsWithPdf en.entryName)).length ∧
    (∀ k : Nat, (unzipWatermarked entries)[k]? =
      ((entries.filter
        (fun en => !en.isDirectory && jsEndsWithPdf en.entryName))[k]?).map
        (fun en =>
          (⟨en.entryName, base64Encode en.data, "application/pdf"⟩ :
            ProcessedAttachment))) ∧
    (∀ (db : List Funder) (j : String) (polls : Nat → PollResponse)
      (dl : Option String → DownloadResult) (sr : Option String)
      (e : EmailData) (r : String) (funder : Funder) (se : String)
      (url : Option String) (n : Nat),
      jsOr e.toFullEmail e.toField = some r →
      lookupFunder db (funderIdOf r) = some funder →
      jsOr e.fromField e.fromFullEmail = some se →
      (e.attachments.getD []).isEmpty = false →
      ((e.attachments.getD []).filter
        (fun att => jsEndsWithPdf att.Name)).isEmpty = false →
      pollLoop polls = (PollOutcome.completed url, n) →
      dl url = DownloadResult.ok entries →
      unzipWatermarked entries = [] →
      (handlerC db (WmCallResult.okJob j) polls dl sr e).1 =
        Resp.processingFailed "No PDF files found in watermarked ZIP") := by
  refine ⟨?_, ?_, ?_⟩
  · simp [unzipWatermarked]
  · intro k
    simp [unzipWatermarked]
  · intro db j polls dl sr e r funder se url n hrec hfun hse hA hP hpoll hdl hz
    have hCeq : handlerC db (WmCallResult.okJob j) polls dl sr e =
        ((handlerCBody db (WmCallResult.okJob j) polls dl sr e r).1,
          Event.lookup (funderIdOf r) ::
            (handlerCBody db (WmCallResult.okJob j) polls dl sr e r).2) := by
      unfold handlerC
      rw [hrec]
    rw [hCeq]
    simp only [handlerCBody, hfun, hse, hA, hP, Bool.false_eq_true, if_false,
      hpoll, hdl, hz, List.isEmpty_nil, if_true]

/-- Witness for C7: the spec's 3-documents-plus-1-other archive yields exactly
3 attachments, and a no-document archive hard-fails the pipeline. -/
theorem c7_unzip_shape_witness :
    (unzipWatermarked zipGood).length = 3 ∧
    (handlerC dbAcme (WmCallResult.okJob "j")
        (fun _ => PollResponse.ok "completed" (some "u") none)
        (fun _ => DownloadResult.ok zipNoPdf) none eAcme).1 =
      Resp.processingFailed "No PDF files found in watermarked ZIP" := by
  have h1 := c7_unzip_shape zipGood
  have h2 := c7_unzip_shape zipNoPdf
  refine ⟨?_, ?_⟩
  · rw [h1.1]
    rfl
  · exact h2.2.2 dbAcme "j" (fun _ => PollResponse.ok "completed" (some "u") none)
      (fun _ => DownloadResult.ok zipNoPdf) none eAcme
      "acme@gateway.aquamark.io" acmeFunder "alice@broker.example" (some "u") 1
      rfl rfl rfl rfl rfl rfl rfl rfl

/-- C3: the async poll loop issues at most 15 polls (2 time-units apart); a
`completed` status terminates the loop after the polls made so far; a
`failed` status terminates the whole request with the job-failed error
carrying the service's message and performs no further polls (the trace has
exactly the polls made); any other status or non-ok response continues; and
exhausting all 15 attempts without a terminal status fails the request with
the job-timeout error; on `completed` the download is invoked. -/
theorem c3_poll_protocol (polls : Nat → PollResponse) :
    (pollLoop polls).2 ≤ 15 ∧
    ((∀ k, k < 15 → pollStep (polls k) = none) →
      pollLoop polls = (PollOutcome.timeout, 15)) ∧
    (∀ j, j < 15 → (∀ i, i < j → pollStep (polls i) = none) →
      (∀ url, pollStep (polls j) = some (PollOutcome.completed url) →
        pollLoop polls = (PollOutcome.completed url, j + 1)) ∧
      (∀ m, pollStep (polls j) = some (PollOutcome.failed m) →
        pollLoop polls = (PollOutcome.failed m, j + 1))) ∧
    (∀ (db : List Funder) (jid : String) (dl : Option String → DownloadResult)
      (sr : Option String) (e : EmailData) (r : String) (funder : Funder)
      (se : String) (msg : Option String) (n : Nat),
      jsOr e.toFullEmail e.toField = some r →
      lookupFunder db (funderIdOf r) = some funder →
      jsOr e.fromField e.fromFullEmail = some se →
      (e.attachments.getD []).isEmpty = false →
      ((e.attachments.getD []).filter
        (fun att => jsEndsWithPdf att.Name)).isEmpty = false →
      pollLoop polls = (PollOutcome.failed msg, n) →
      handlerC db (WmCallResult.okJob jid) polls dl sr e =
        (Resp.processingFailed ("Watermarking job failed: " ++ optStr msg),
          Event.lookup (funderIdOf r) ::
            Event.watermarkBatch
              (((e.attachments.getD []).filter
                (fun att => jsEndsWithPdf att.Name)).map
                (fun att => (att.Name, att.Content))) ::
            (List.range n).map Event.pollStatus)) ∧
    (∀ (db : List Funder) (jid : String) (dl : Option String → DownloadResult)
      (sr : Option String) (e : EmailData) (r : String) (funder : Funder)
      (se : String) (n : Nat),
      jsOr e.toFullEmail e.toField = some r →
      lookupFunder db (funderIdOf r) = some funder →
      jsOr e.fromField e.fromFullEmail = some se →
      (e.attachments.getD []).isEmpty = false →
      ((e.attachments.getD []).filter
        (fun att => jsEndsWithPdf att.Name)).isEmpty = false →
      pollLoop polls = (PollOutcome.timeout, n) →
      handlerC db (WmCallResult.okJob jid) polls dl sr e =
        (Resp.processingFailed "Watermarking job timed out",
          Event.lookup (funderIdOf r) ::
            Event.watermarkBatch
              (((e.attachments.getD []).filter
                (fun att => jsEndsWithPdf att.Name)).map
                (fun att => (att.Name, att.Content))) ::
            (List.range n).map Event.pollStatus)) ∧
    (∀ (db : List Funder) (jid : String) (dl : Option String → DownloadResult)
      (sr : Option String) (e : EmailData) (r : String) (funder : Funder)
      (se : String) (url : Option String) (n : Nat),
      jsOr e.toFullEmail e.toField = some r →
      lookupFunder db (funderIdOf r) = some funder →
      jsOr e.fromField e.fromFullEmail = some se →
      (e.attachments.getD []).isEmpty = false →
      ((e.attachments.getD []).filter
        (fun att => jsEndsWithPdf att.Name)).isEmpty = false →
      pollLoop polls = (PollOutcome.completed url, n) →
      Event.download url ∈ (handlerC db (WmCallResult.okJob jid) polls dl sr e).2) := by
  refine ⟨runPolls_count_le polls 0 15, ?_, ?_, ?_, ?_, ?_⟩
  · intro h
    exact runPolls_all_none polls 0 15 (fun i hi => by simpa using h i hi)
  · intro j hj hnone
    constructor
    · intro url hterm
      exact runPolls_first_terminal polls 0 15 j _ hj
        (fun i hi => by simpa using hnone i hi) (by simpa using hterm)
    · intro m hterm
      exact runPolls_first_terminal polls 0 15 j _ hj
        (fun i hi => by simpa using hnone i hi) (by simpa using hterm)
  · intro db jid dl sr e r funder se msg n hrec hfun hse hA hP hpoll
    have hCeq : handlerC db (WmCallResult.okJob jid) polls dl sr e =
        ((handlerCBody db (WmCallResult.okJob jid) polls dl sr e r).1,
          Event.lookup (funderIdOf r) ::
            (handlerCBody db (WmCallResult.okJob jid) polls dl sr e r).2) := by
      unfold handlerC
      rw [hrec]
    rw [hCeq]
    simp only [handlerCBody, hfun, hse, hA, hP, Bool.false_eq_true, if_false, hpoll]
  · intro db jid dl sr e r funder se n hrec hfun hse hA hP hpoll
    have hCeq : handlerC db (WmCallResult.okJob jid) polls dl sr e =
        ((handlerCBody db (WmCallResult.okJob jid) polls dl sr e r).1,
          Event.lookup (funderIdOf r) ::
            (handlerCBody db (WmCallResult.okJob jid) polls dl sr e r).2) := by
      unfold handlerC
      rw [hrec]
    rw [hCeq]
    simp only [handlerCBody, hfun, hse, hA, hP, Bool.false_eq_true, if_false, hpoll]
  · intro db jid dl sr e r funder se url n hrec hfun hse hA hP hpoll
    have hCeq : handlerC db (WmCallResult.okJob jid) polls dl sr e =
        ((handlerCBody db (WmCallResult.okJob jid) polls dl sr e r).1,
          Event.lookup (funderIdOf r) ::
            (handlerCBody db (WmCallResult.okJob jid) polls dl sr e r).2) := by
      unfold handlerC
      rw [hrec]
    rw [hCeq]
    simp only [handlerCBody, hfun, hse, hA, hP, Bool.false_eq_true, if_false, hpoll]
    cases dl url with
    | fail st => simp
    | ok entries =>
      dsimp only
      cases (unzipWatermarked entries).isEmpty with
      | true => simp
      | false =>
        cases sr with
        | none => simp
        | some m2 => simp

/-- Witness for C3: an always-pending job times out after exactly 15 polls; a
job failing on the third poll stops after exactly 3 polls and the whole
request fails with the job-failed error carrying the service message. -/
theorem c3_poll_protocol_witness :
    pollLoop pollsPending = (PollOutcome.timeout, 15) ∧
    pollLoop pollsFailAt3 = (PollOutcome.failed (some "err"), 3) ∧
    handlerC dbAcme (WmCallResult.okJob "j") pollsFailAt3
        (fun _ => DownloadResult.fail "x") none eAcme =
      (Resp.processingFailed "Watermarking job failed: err",
        [Event.lookup "acme", Event.watermarkBatch [("doc.pdf", "aGVsbG8=")],
          Event.pollStatus 0, Event.pollStatus 1, Event.pollStatus 2]) := by
  have h1 := c3_poll_protocol pollsPending
  have h2 := c3_poll_protocol pollsFailAt3
  have hnone : ∀ i, i < 2 → pollStep (pollsFailAt3 i) = none := by
    intro i hi
    interval_cases i <;> rfl
  have hpoll : pollLoop pollsFailAt3 = (PollOutcome.failed (some "err"), 3) :=
    (h2.2.2.1 2 (by omega) hnone).2 (some "err") rfl
  refine ⟨h1.2.1 (fun k hk => rfl), hpoll, ?_⟩
  exact h2.2.2.2.1 dbAcme "j" (fun _ => DownloadResult.fail "x") none eAcme
    "acme@gateway.aquamark.io" acmeFunder "alice@broker.example" (some "err") 3
    rfl rfl rfl rfl rfl hpoll

/-- C4: in the staging synchronous variant, with N eligible (PDF-named)
attachments of which M fail watermarking: if M = N the request fails with
the all-failed error (HTTP 500) and no outbound message is sent; if M < N
the response is success and the single outbound message carries exactly the
N − M successfully watermarked attachments, in input order (the ordered
projection `specSentB`). -/
theorem c4_partial_failure (db : List Funder) (oc : Nat → BOutcome)
    (ts : Nat → Nat) (e : EmailData) (r : String) (funder : Funder) (sn : String)
    (hrec : jsOr e.toFullEmail e.toField = some r)
    (hfun : lookupFunder db (funderIdOf r) = some funder)
    (hsn : senderNameB e (jsOr e.fromField e.fromFullEmail) = some sn)
    (hNe : eligEnumB (e.attachments.getD []) ≠ []) :
    (((eligEnumB (e.attachments.getD [])).filter
        (fun p => !bOk (oc p.1))).length =
          (eligEnumB (e.attachments.getD [])).length →
      (handlerB db oc ts none e).1 = Resp.allFailed ∧
      httpStatus Resp.allFailed = 500 ∧
      ∀ m : OutMail, Event.send m ∉ (handlerB db oc ts none e).2) ∧
    (((eligEnumB (e.attachments.getD [])).filter
        (fun p => !bOk (oc p.1))).length <
          (eligEnumB (e.attachments.getD [])).length →
      (handlerB db oc ts none e).1 =
        Resp.okSuccess ((eligEnumB (e.attachments.getD [])).length -
          ((eligEnumB (e.attachments.getD [])).filter
            (fun p => !bOk (oc p.1))).length) ∧
      (specSentB oc (e.attachments.getD [])).length =
        (eligEnumB (e.attachments.getD [])).length -
          ((eligEnumB (e.attachments.getD [])).filter
            (fun p => !bOk (oc p.1))).length ∧
      ∃ m : OutMail, Event.send m ∈ (handlerB db oc ts none e).2 ∧
        m.Attachments = specSentB oc (e.attachments.getD [])) := by
  have hBeq : handlerB db oc ts none e =
      ((handlerBBody db oc ts none e r).1,
        Event.lookup (funderIdOf r) :: (handlerBBody db oc ts none e r).2) := by
    unfold handlerB
    rw [hrec]
  have hres : (processB oc ts (e.attachments.getD []) 0).1 =
      specSentB oc (e.attachments.getD []) := by
    rw [processB_results]
    rfl
  have hattsne : e.attachments.getD [] ≠ [] := by
    intro h
    exact hNe (by simp [eligEnumB, h])
  have hA : (e.attachments.getD []).isEmpty = false := by
    simpa using hattsne
  have hsplit := specSentB_length oc (e.attachments.getD [])
  constructor
  · intro hMN
    have hs0 : specSentB oc (e.attachments.getD []) = [] := by
      have hl : (specSentB oc (e.attachments.getD [])).length = 0 := by omega
      exact List.length_eq_zero.mp hl
    have hpe : (processB oc ts (e.attachments.getD []) 0).1.isEmpty = true := by
      rw [hres, hs0]
      rfl
    have hbody : handlerBBody db oc ts none e r =
        (Resp.allFailed,
          (processB oc ts (e.attachments.getD []) 0).2.2 ++
            (processB oc ts (e.attachments.getD []) 0).2.1.map Event.remove) := by
      simp only [handlerBBody, hfun, hsn, hA, Bool.false_eq_true, if_false,
        hpe, if_true]
    refine ⟨by rw [hBeq, hbody], rfl, ?_⟩
    intro m
    rw [hBeq, hbody]
    intro hm
    rcases List.mem_cons.mp hm with h | h
    · exact absurd h (by simp)
    · rcases List.mem_append.mp h with h2 | h2
      · exact absurd h2 (processB_no_send oc ts _ 0 m)
      · simp at h2
  · intro hMlt
    have hslen : (specSentB oc (e.attachments.getD [])).length =
        (eligEnumB (e.attachments.getD [])).length -
          ((eligEnumB (e.attachments.getD [])).filter
            (fun p => !bOk (oc p.1))).length := by
      omega
    have hsne : specSentB oc (e.attachments.getD []) ≠ [] := by
      have hpos : 0 < (specSentB oc (e.attachments.getD [])).length := by omega
      exact List.length_pos.mp hpos
    have hpe : (processB oc ts (e.attachments.getD []) 0).1.isEmpty = false := by
      rw [hres]
      simpa using hsne
    have hbody : handlerBBody db oc ts none e r =
        (Resp.okSuccess (processB oc ts (e.attachments.getD []) 0).1.length,
          (processB oc ts (e.attachments.getD []) 0).2.2 ++
            (processB oc ts (e.attachments.getD []) 0).2.1.map Event.remove ++
            [Event.send
              ⟨"gateway@aquamark.io", jsOr e.fromField e.fromFullEmail,
                funder.destination_email,
                "New Submission - " ++ funder.company_name,
                "Submitted by: " ++ sn ++ " (" ++
                  optStr (jsOr e.fromField e.fromFullEmail) ++ ")",
                (processB oc ts (e.attachments.getD []) 0).1⟩]) := by
      simp only [handlerBBody, hfun, hsn, hA, Bool.false_eq_true, if_false,
        hpe, if_true]
    refine ⟨?_, hslen, ?_⟩
    · rw [hBeq]
      dsimp only
      rw [hbody]
      dsimp only
      rw [hres, hslen]
    · refine ⟨⟨"gateway@aquamark.io", jsOr e.fromField e.fromFullEmail,
          funder.destination_email, "New Submission - " ++ funder.company_name,
          "Submitted by: " ++ sn ++ " (" ++
            optStr (jsOr e.fromField e.fromFullEmail) ++ ")",
          (processB oc ts (e.attachments.getD []) 0).1⟩, ?_, ?_⟩
      · rw [hBeq, hbody]
        exact List.mem_cons_of_mem _
          (List.mem_append_right _ (List.mem_singleton.mpr rfl))
      · dsimp only
        exact hres

/-- Witness for C4: two eligible PDFs with one watermarking failure yield a
success response (one attachment kept); two failures out of two yield the
all-failed error. -/
theorem c4_partial_failure_witness :
    (handlerB dbAcme
        (fun k => if k = 0 then BOutcome.wmOk "w1" else BOutcome.wmFail)
        (fun _ => 7) none eTwoPdf).1 = Resp.okSuccess 1 ∧
    (handlerB dbAcme (fun _ => BOutcome.wmFail) (fun _ => 7) none eTwoPdf).1 =
      Resp.allFailed := by
  have h1 := c4_partial_failure dbAcme
    (fun k => if k = 0 then BOutcome.wmOk "w1" else BOutcome.wmFail) (fun _ => 7)
    eTwoPdf "acme@gateway.aquamark.io" acmeFunder "alice" rfl rfl rfl (by decide)
  have h2 := c4_partial_failure dbAcme (fun _ => BOutcome.wmFail) (fun _ => 7)
    eTwoPdf "acme@gateway.aquamark.io" acmeFunder "alice" rfl rfl rfl (by decide)
  exact ⟨(h1.2 (by decide)).1, (h2.1 (by decide)).1⟩

theorem handlerBBody_cleanup (db : List Funder) (oc : Nat → BOutcome)
    (ts : Nat → Nat) (sr : Option String) (e : EmailData) (r : String)
    (path : String)
    (h : Event.upload path true ∈ (handlerBBody db oc ts sr e r).2) :
    List.Sublist [Event.upload path true, Event.remove path]
      (handlerBBody db oc ts sr e r).2 := by
  cases hfun : lookupFunder db (funderIdOf r) with
  | none =>
    simp only [handlerBBody, hfun] at h
    simp at h
  | some funder =>
    cases hsn : senderNameB e (jsOr e.fromField e.fromFullEmail) with
    | none =>
      simp only [handlerBBody, hfun, hsn] at h
      simp at h
    | some sn =>
      simp only [handlerBBody, hfun, hsn] at h ⊢
      by_cases hA : (e.attachments.getD []).isEmpty
      · rw [if_pos hA] at h
        simp at h
      · rw [if_neg hA] at h ⊢
        by_cases hP : (processB oc ts (e.attachments.getD []) 0).1.isEmpty
        · rw [if_pos hP] at h ⊢
          have hup : Event.upload path true ∈
              (processB oc ts (e.attachments.getD []) 0).2.2 := by
            rcases List.mem_append.mp h with h2 | h2
            · exact h2
            · exfalso
              simp at h2
          have hmem := processB_upload_mem oc ts _ 0 path hup
          have s1 : List.Sublist [Event.upload path true]
              (processB oc ts (e.attachments.getD []) 0).2.2 :=
            List.singleton_sublist.mpr hup
          have s2 : List.Sublist [Event.remove path]
              ((processB oc ts (e.attachments.getD []) 0).2.1.map Event.remove) :=
            List.singleton_sublist.mpr (List.mem_map_of_mem _ hmem)
          exact s1.append s2
        · rw [if_neg hP] at h ⊢
          cases sr with
          | none =>
            dsimp only at h ⊢
            have hup : Event.upload path true ∈
                (processB oc ts (e.attachments.getD []) 0).2.2 := by
              rcases List.mem_append.mp h with h2 | h2
              · rcases List.mem_append.mp h2 with h3 | h3
                · exact h3
                · exfalso
                  simp at h3
              · exfalso
                simp at h2
            have hmem := processB_upload_mem oc ts _ 0 path hup
            have s1 : List.Sublist [Event.upload path true]
                (processB oc ts (e.attachments.getD []) 0).2.2 :=
              List.singleton_sublist.mpr hup
            have s2 : List.Sublist [Event.remove path]
                ((processB oc ts (e.attachments.getD []) 0).2.1.map Event.remove) :=
              List.singleton_sublist.mpr (List.mem_map_of_mem _ hmem)
            exact List.sublist_append_of_sublist_left (s1.append s2)
          | some msg =>
            dsimp only at h ⊢
            have hup : Event.upload path true ∈
                (processB oc ts (e.attachments.getD []) 0).2.2 := by
              rcases List.mem_append.mp h with h2 | h2
              · rcases List.mem_append.mp h2 with h3 | h3
                · exact h3
                · exfalso
                  simp at h3
              · exfalso
                simp at h2
            have hmem := processB_upload_mem oc ts _ 0 path hup
            have s1 : List.Sublist [Event.upload path true]
                (processB oc ts (e.attachments.getD []) 0).2.2 :=
              List.singleton_sublist.mpr hup
            have s2 : List.Sublist [Event.remove path]
                ((processB oc ts (e.attachments.getD []) 0).2.1.map Event.remove) :=
              List.singleton_sublist.mpr (List.mem_map_of_mem _ hmem)
            exact List.sublist_append_of_sublist_left (s1.append s2)

/-- C5: in the staging variant, every temporary object whose upload succeeded
has a removal attempted later in the same request, on success and failure
paths alike — the ordered pair upload-then-remove for the same path embeds in
the observed storage call sequence. -/
theorem c5_staging_cleanup (db : List Funder) (oc : Nat → BOutcome)
    (ts : Nat → Nat) (sr : Option String) (e : EmailData) (path : String)
    (h : Event.upload path true ∈ (handlerB db oc ts sr e).2) :
    List.Sublist [Event.upload path true, Event.remove path]
      (handlerB db oc ts sr e).2 := by
  cases hrec : jsOr e.toFullEmail e.toField with
  | none =>
    exfalso
    unfold handlerB at h
    rw [hrec] at h
    simp at h
  | some r =>
    have hBeq : handlerB db oc ts sr e =
        ((handlerBBody db oc ts sr e r).1,
          Event.lookup (funderIdOf r) :: (handlerBBody db oc ts sr e r).2) := by
      unfold handlerB
      rw [hrec]
    rw [hBeq] at h ⊢
    have hb : Event.upload path true ∈ (handlerBBody db oc ts sr e r).2 := by
      rcases List.mem_cons.mp h with h1 | h1
      · exact absurd h1 (by simp)
      · exact h1
    exact (handlerBBody_cleanup db oc ts sr e r path hb).cons _

/-- Witness for C5: a staged PDF whose watermarking call fails still has its
temporary object removed — the upload-remove pair embeds in the trace. -/
theorem c5_staging_cleanup_witness :
    List.Sublist
      [Event.upload (tempName (fun _ => 7) 0 "doc.pdf") true,
        Event.remove (tempName (fun _ => 7) 0 "doc.pdf")]
      (handlerB dbAcme (fun _ => BOutcome.wmFail) (fun _ => 7) none eAcme).2 :=
  c5_staging_cleanup dbAcme (fun _ => BOutcome.wmFail) (fun _ => 7) none eAcme
    (tempName (fun _ => 7) 0 "doc.pdf") (by decide)
